import Mathlib

/-
Verification of the RingCentral–LiveKit audio connector (src/src/index.ts).

The file shallowly embeds the two audio pipelines of the connector:

* the outbound pipeline `sendLivekitAudioStreamToCallSession`, which consumes
  room audio frames, accumulates their PCM bytes, slices exact 640-byte frames,
  encodes each one and sends it as an RTP packet to the call session; and
* the inbound per-packet handler registered on the call session's
  `audioPacket` event, which decodes an RTP payload to PCM and captures it
  into the room's audio source.

Byte buffers are modelled as `List Nat` (one entry per byte); the opaque
external collaborators (the codec encoder and decoder, the RTP packet class,
the audio source) are modelled by oracles and plain records.  The closed-over
`callEnded` boolean of `inviteUserToRoom` is passed to the pipeline by value
in the source (it is a member of a destructured options object), so it is an
immutable `Bool` parameter here, exactly as in the JavaScript semantics.
-/

set_option maxRecDepth 10000

namespace RCLK

/-- LIVEKIT_FRAME_SIZE from src/src/index.ts: 20 ms at 16 kHz = 320 samples. -/
def LIVEKIT_FRAME_SIZE : Nat := 320

/-- REQUIRED_BYTES_TO_SEND from src/src/index.ts: 640 bytes per frame. -/
def REQUIRED_BYTES_TO_SEND : Nat := LIVEKIT_FRAME_SIZE * 2

/-- FRAME_SIZE alias used inside `sendLivekitAudioStreamToCallSession`. -/
def FRAME_SIZE : Nat := REQUIRED_BYTES_TO_SEND

/-- MAX_BUFFER_FRAMES from src/src/index.ts. -/
def MAX_BUFFER_FRAMES : Nat := 5

/-- MAX_BUFFER_SIZE = FRAME_SIZE * MAX_BUFFER_FRAMES = 3200 bytes. -/
def MAX_BUFFER_SIZE : Nat := FRAME_SIZE * MAX_BUFFER_FRAMES

/-- randomInt from src/src/index.ts:
`Math.floor(Math.random() * (65535 - 1024 + 1)) + 1024`.
The draw of `Math.random()` is the parameter `r`, a rational in `[0, 1)`. -/
def randomInt (r : ℚ) : Nat := (⌊r * (65535 - 1024 + 1)⌋).toNat + 1024

/-- RtpHeader record mirroring the `new RtpHeader({...})` construction. -/
structure RtpHeader where
  version : Nat
  padding : Bool
  paddingSize : Nat
  extension : Bool
  marker : Bool
  payloadOffset : Nat
  payloadType : Nat
  sequenceNumber : Nat
  timestamp : Nat
  ssrc : Nat
  csrcLength : Nat
  csrc : List Nat
  extensionProfile : Nat
deriving Repr, DecidableEq

/-- RtpPacket record mirroring `new RtpPacket(header, payload)`. -/
structure RtpPacket where
  header : RtpHeader
  payload : List Nat
deriving Repr, DecidableEq

/-- Mutable locals of one invocation of `sendLivekitAudioStreamToCallSession`,
together with the observable traces of the invocation: `encodedFrames` is the
list of byte buffers handed to `callSession.encoder.encode`, in order, and
`sent` is the list of packets handed to `callSession.sendPacket`, in order.
`overflowDrops` counts how many times the buffer-overflow protection fired. -/
structure OutboundState where
  pcmBuffer : List Nat
  tempBuffer : List (List Nat)
  frameCount : Nat
  totalBytesProcessed : Nat
  sequenceNumber : Nat
  timestamp : Nat
  encodedFrames : List (List Nat)
  sent : List RtpPacket
  overflowDrops : Nat
deriving Repr, DecidableEq

/-- Initial locals: `timestamp = Math.floor(Date.now() / 1000)` is the
parameter `nowSec`, and `sequenceNumber = timestamp % 65536`. -/
def initState (nowSec : Nat) : OutboundState where
  pcmBuffer := []
  tempBuffer := []
  frameCount := 0
  totalBytesProcessed := 0
  sequenceNumber := nowSec % 65536
  timestamp := nowSec
  encodedFrames := []
  sent := []
  overflowDrops := 0

/-- Total number of bytes held by a list of chunks. -/
def listBytes (l : List (List Nat)) : Nat := (l.map List.length).sum

/-- Bytes accumulated but not yet handed to the encoder: the accumulation
buffer plus the pending (not yet concatenated) chunk list. -/
def unsentBytes (st : OutboundState) : Nat :=
  st.pcmBuffer.length + listBytes st.tempBuffer

/-- RTP packet built per frame at lines 187-205 of src/src/index.ts:
`new RtpPacket(new RtpHeader({...}), encodedPacket)` with the literal header
field values of the source. -/
def mkRtpPacket (payloadType sequenceNumber timestamp ssrc : Nat)
    (payload : List Nat) : RtpPacket where
  header :=
    { version := 2
      padding := false
      paddingSize := 0
      extension := false
      marker := false
      payloadOffset := 12
      payloadType := payloadType
      sequenceNumber := sequenceNumber
      timestamp := timestamp
      ssrc := ssrc
      csrcLength := 0
      csrc := []
      extensionProfile := 48862 }
  payload := payload

/-- Body of the inner `while` loop of the outbound pipeline (lines 171-220 of
src/src/index.ts): copy the first `FRAME_SIZE` bytes into the reusable frame
buffer, advance `pcmBuffer` past them, then try to encode and send.  The
encoder is the oracle `enc`, indexed by the number of encode calls made so
far; `enc i frame = none` models `encoder.encode` throwing on that call, in
which case the error is caught, nothing is sent, the sequence number and
timestamp stay put, and the loop continues. -/
def drainStep (enc : Nat → List Nat → Option (List Nat))
    (payloadType timestampInterval ssrc : Nat) (st : OutboundState) : OutboundState :=
  match enc st.encodedFrames.length (st.pcmBuffer.take FRAME_SIZE) with
  | none =>
      { st with pcmBuffer := st.pcmBuffer.drop FRAME_SIZE,
                encodedFrames := st.encodedFrames ++ [st.pcmBuffer.take FRAME_SIZE] }
  | some encodedData =>
      { st with pcmBuffer := st.pcmBuffer.drop FRAME_SIZE,
                encodedFrames := st.encodedFrames ++ [st.pcmBuffer.take FRAME_SIZE],
                sequenceNumber :=
                  if 65535 < st.sequenceNumber + 1 then 0 else st.sequenceNumber + 1,
                timestamp := st.timestamp + timestampInterval,
                sent := st.sent ++
                  [mkRtpPacket payloadType st.sequenceNumber st.timestamp ssrc encodedData] }

lemma drainStep_pcmBuffer (enc : Nat → List Nat → Option (List Nat))
    (payloadType timestampInterval ssrc : Nat) (st : OutboundState) :
    (drainStep enc payloadType timestampInterval ssrc st).pcmBuffer
      = st.pcmBuffer.drop FRAME_SIZE := by
  unfold drainStep
  cases enc st.encodedFrames.length (st.pcmBuffer.take FRAME_SIZE) <;> rfl

/-- Fuel-indexed unfolding of the inner
`while (pcmBuffer.length >= FRAME_SIZE && !callEnded)` loop.  Each iteration
removes exactly `FRAME_SIZE = 640 ≥ 1` bytes from `pcmBuffer`, so the loop
runs at most `pcmBuffer.length` times; `drainLoopFuel_congr` below proves
that any fuel of at least that size yields the same result, so the fuelled
recursion is exactly the source's `while` loop. -/
def drainLoopFuel (enc : Nat → List Nat → Option (List Nat))
    (payloadType timestampInterval ssrc : Nat) (callEnded : Bool) :
    Nat → OutboundState → OutboundState
  | 0, st => st
  | fuel + 1, st =>
      if FRAME_SIZE ≤ st.pcmBuffer.length ∧ callEnded = false then
        drainLoopFuel enc payloadType timestampInterval ssrc callEnded fuel
          (drainStep enc payloadType timestampInterval ssrc st)
      else st

/-- Inner `while` loop of the outbound pipeline, run to completion. -/
def drainLoop (enc : Nat → List Nat → Option (List Nat))
    (payloadType timestampInterval ssrc : Nat) (callEnded : Bool)
    (st : OutboundState) : OutboundState :=
  drainLoopFuel enc payloadType timestampInterval ssrc callEnded
    st.pcmBuffer.length st

lemma drainLoopFuel_congr (enc : Nat → List Nat → Option (List Nat))
    (payloadType timestampInterval ssrc : Nat) (callEnded : Bool) :
    ∀ fuel fuel' st, st.pcmBuffer.length ≤ fuel → st.pcmBuffer.length ≤ fuel' →
      drainLoopFuel enc payloadType timestampInterval ssrc callEnded fuel st
        = drainLoopFuel enc payloadType timestampInterval ssrc callEnded fuel' st := by
  have hF : FRAME_SIZE = 640 := by decide
  intro fuel
  induction fuel with
  | zero =>
      intro fuel' st h0 _
      cases fuel' with
      | zero => rfl
      | succ n =>
          simp only [drainLoopFuel]
          rw [if_neg]
          rintro ⟨hc, -⟩
          omega
  | succ n ih =>
      intro fuel' st h0 h1
      cases fuel' with
      | zero =>
          simp only [drainLoopFuel]
          rw [if_neg]
          rintro ⟨hc, -⟩
          omega
      | succ m =>
          simp only [drainLoopFuel]
          by_cases hc : FRAME_SIZE ≤ st.pcmBuffer.length ∧ callEnded = false
          · have hc1 := hc.1
            rw [if_pos hc, if_pos hc]
            apply ih
            · rw [drainStep_pcmBuffer, List.length_drop]; omega
            · rw [drainStep_pcmBuffer, List.length_drop]; omega
          · rw [if_neg hc, if_neg hc]

/-- Memory protection of lines 154-159 of src/src/index.ts: the buffer is
dropped when `pcmBuffer.length + chunkSize > MAX_BUFFER_SIZE`.  Note the
condition counts only the merged accumulation buffer and the incoming chunk,
not the bytes sitting in the pending `tempBuffer` list. -/
def overflowCheck (chunkSize : Nat) (st : OutboundState) : OutboundState :=
  if MAX_BUFFER_SIZE < st.pcmBuffer.length + chunkSize then
    { st with pcmBuffer := [], tempBuffer := [],
              overflowDrops := st.overflowDrops + 1 }
  else st

/-- Lines 161-169 of src/src/index.ts: push the chunk onto `tempBuffer`, then
concatenate everything into `pcmBuffer` when the pending list exceeds 3
entries or the combined pending plus accumulated length reaches
`FRAME_SIZE`. -/
def mergeTemp (chunk : List Nat) (st : OutboundState) : OutboundState :=
  if 3 < (st.tempBuffer ++ [chunk]).length ∨
      FRAME_SIZE ≤ (st.tempBuffer ++ [chunk]).foldl
        (fun sum buf => sum + buf.length) st.pcmBuffer.length then
    { st with pcmBuffer := st.pcmBuffer ++ (st.tempBuffer ++ [chunk]).flatten,
              tempBuffer := [] }
  else
    { st with tempBuffer := st.tempBuffer ++ [chunk] }

/-- Per-frame accumulation steps of the outer `for await` loop (lines
146-169 of src/src/index.ts), in source order: bump the counters, apply the
overflow protection, push the chunk onto the pending list and merge when the
batching condition fires. -/
def accumulateChunk (chunk : List Nat) (st : OutboundState) : OutboundState :=
  mergeTemp chunk (overflowCheck chunk.length
    { st with frameCount := st.frameCount + 1,
              totalBytesProcessed := st.totalBytesProcessed + chunk.length })

/-- One iteration of the outer `for await (const audioFrame of audioStream)`
loop on a valid frame.  The `callEnded` parameter is the by-value snapshot
taken when the pipeline was invoked; when it is `true` the loop body `break`s
before touching any state, which on an immutable flag is the same as leaving
every remaining frame unprocessed.  Frames failing the
`!audioFrame?.data?.buffer` validation are skipped by the source and carry no
bytes; the model's input ranges over the valid frames. -/
def processFrame (enc : Nat → List Nat → Option (List Nat))
    (payloadType timestampInterval ssrc : Nat) (callEnded : Bool)
    (st : OutboundState) (audioFrame : List Nat) : OutboundState :=
  if callEnded then st
  else drainLoop enc payloadType timestampInterval ssrc callEnded
    (accumulateChunk audioFrame st)

/-- Outbound pipeline `sendLivekitAudioStreamToCallSession` of
src/src/index.ts.  `disposed` is `callSession.disposed` as read once at entry;
`callEnded` is the by-value snapshot of the closed-over flag at invocation
time; `nowSec` is `Math.floor(Date.now() / 1000)`; `payloadType` is
`callSession.softphone.codec.id`; `timestampInterval` is
`callSession.softphone.codec.timestampInterval`; `r` is the `Math.random()`
draw used by `randomInt` for the ssrc; `enc` is the encoder oracle; and
`audioStream` is the finite sequence of valid room audio frames (their PCM
bytes).  The result is the final state, including the traces of encoder
calls and sent packets. -/
def sendLivekitAudioStreamToCallSession (disposed callEnded : Bool)
    (nowSec payloadType timestampInterval : Nat) (r : ℚ)
    (enc : Nat → List Nat → Option (List Nat))
    (audioStream : List (List Nat)) : OutboundState :=
  if disposed then initState nowSec
  else
    audioStream.foldl
      (processFrame enc payloadType timestampInterval (randomInt r) callEnded)
      (initState nowSec)

/-! Inbound pipeline: the `audioPacket` handler of `inviteUserToRoom`. -/

/-- Connector field `sampleRate` (src/src/index.ts line 17). -/
def sampleRate : Nat := 16000

/-- Connector field `channels` (src/src/index.ts line 18). -/
def channels : Nat := 1

/-- Signed 16-bit sample assembled little-endian from two bytes. -/
def toInt16 (lo hi : Nat) : Int :=
  let w := lo % 256 + 256 * (hi % 256)
  if w < 32768 then (w : Int) else (w : Int) - 65536

/-- Samples viewed by `new Int16Array(pcm.buffer, pcm.byteOffset,
pcm.byteLength / Int16Array.BYTES_PER_ELEMENT)`.  In ECMAScript the length
argument goes through ToIndex, whose ToIntegerOrInfinity step truncates a
fractional value, so an odd `byteLength` yields `⌊byteLength / 2⌋` samples
(the trailing byte is ignored) rather than an error; the byte offset of a
decoder-produced Node buffer is 8-byte aligned, so the alignment check
passes.  Nat division below is exactly that truncation. -/
def int16Samples (pcm : List Nat) : List Int :=
  (List.range (pcm.length / 2)).map
    (fun i => toInt16 (pcm.getD (2 * i) 0) (pcm.getD (2 * i + 1) 0))

/-- AudioFrame record mirroring
`new AudioFrame(pcmSamples, sampleRate, channels, pcmSamples.length)`. -/
structure AudioFrame where
  data : List Int
  sampleRate : Nat
  channels : Nat
  samplesPerChannel : Nat
deriving Repr, DecidableEq

/-- Per-packet `audioPacket` handler (lines 59-69 of src/src/index.ts).
`decodeRes` is the result of `callSession.decoder.decode` on the packet's
payload bytes (`none` models the decoder throwing); `captureThrows` models
`source.captureFrame` throwing.  The result is the list of frames captured
into the room audio source for this packet together with the number of
`console.error` log entries emitted; any throw is caught by the handler's
`try`/`catch`, which logs once and publishes nothing. -/
def audioPacketHandler (decodeRes : Option (List Nat)) (captureThrows : Bool) :
    List AudioFrame × Nat :=
  match decodeRes with
  | none => ([], 1)
  | some pcm =>
      let pcmSamples := int16Samples pcm
      if captureThrows then ([], 1)
      else ([{ data := pcmSamples
               sampleRate := sampleRate
               channels := channels
               samplesPerChannel := pcmSamples.length }], 0)

/-- Whole inbound stream: the handler is re-run independently on every
`audioPacket` event, holding no state between packets, so a packet sequence
maps to the per-packet results. -/
def onAudioPacket (packets : List (Option (List Nat) × Bool)) :
    List (List AudioFrame × Nat) :=
  packets.map (fun p => audioPacketHandler p.1 p.2)

/-! Helper lemmas about the embedding. -/

lemma FRAME_SIZE_eq : FRAME_SIZE = 640 := by decide

lemma MAX_BUFFER_SIZE_eq : MAX_BUFFER_SIZE = 3200 := by decide

lemma listBytes_append (a b : List (List Nat)) :
    listBytes (a ++ b) = listBytes a + listBytes b := by
  simp [listBytes]

lemma listBytes_singleton (x : List Nat) : listBytes [x] = x.length := by
  simp [listBytes]

lemma listBytes_flatten (l : List (List Nat)) :
    l.flatten.length = listBytes l := by
  simp [listBytes, List.length_flatten]

lemma foldl_add_length (l : List (List Nat)) (n : Nat) :
    l.foldl (fun sum buf => sum + buf.length) n = n + listBytes l := by
  induction l generalizing n with
  | nil => simp [listBytes]
  | cons a t ih => simp [listBytes, ih, List.sum_cons]; omega

lemma listBytes_all_frames (l : List (List Nat)) (n : Nat)
    (h : ∀ f ∈ l, f.length = n) : listBytes l = n * l.length := by
  induction l with
  | nil => simp [listBytes]
  | cons a t ih =>
      have ha := h a (List.mem_cons_self a t)
      have ht := ih (fun f hf => h f (List.mem_cons_of_mem a hf))
      simp [listBytes] at ht ⊢
      rw [ha, ht]
      ring

lemma drainStep_fields (enc : Nat → List Nat → Option (List Nat))
    (payloadType timestampInterval ssrc : Nat) (st : OutboundState) :
    (drainStep enc payloadType timestampInterval ssrc st).tempBuffer = st.tempBuffer
    ∧ (drainStep enc payloadType timestampInterval ssrc st).frameCount = st.frameCount
    ∧ (drainStep enc payloadType timestampInterval ssrc st).totalBytesProcessed
        = st.totalBytesProcessed
    ∧ (drainStep enc payloadType timestampInterval ssrc st).overflowDrops
        = st.overflowDrops
    ∧ (drainStep enc payloadType timestampInterval ssrc st).encodedFrames
        = st.encodedFrames ++ [st.pcmBuffer.take FRAME_SIZE] := by
  unfold drainStep
  cases enc st.encodedFrames.length (st.pcmBuffer.take FRAME_SIZE) <;>
    exact ⟨rfl, rfl, rfl, rfl, rfl⟩

/-- Either the encoder throws (no packet, sequence number and timestamp are
unchanged) or it returns data and exactly one packet carrying the current
sequence number and timestamp is appended. -/
lemma drainStep_sent_cases (enc : Nat → List Nat → Option (List Nat))
    (payloadType timestampInterval ssrc : Nat) (st : OutboundState) :
    (enc st.encodedFrames.length (st.pcmBuffer.take FRAME_SIZE) = none
      ∧ (drainStep enc payloadType timestampInterval ssrc st).sent = st.sent
      ∧ (drainStep enc payloadType timestampInterval ssrc st).sequenceNumber
          = st.sequenceNumber
      ∧ (drainStep enc payloadType timestampInterval ssrc st).timestamp = st.timestamp)
    ∨ (∃ d, enc st.encodedFrames.length (st.pcmBuffer.take FRAME_SIZE) = some d
      ∧ (drainStep enc payloadType timestampInterval ssrc st).sent
          = st.sent ++ [mkRtpPacket payloadType st.sequenceNumber st.timestamp ssrc d]
      ∧ (drainStep enc payloadType timestampInterval ssrc st).sequenceNumber
          = (if 65535 < st.sequenceNumber + 1 then 0 else st.sequenceNumber + 1)
      ∧ (drainStep enc payloadType timestampInterval ssrc st).timestamp
          = st.timestamp + timestampInterval) := by
  unfold drainStep
  cases h : enc st.encodedFrames.length (st.pcmBuffer.take FRAME_SIZE) with
  | none => exact Or.inl ⟨rfl, rfl, rfl, rfl⟩
  | some d => exact Or.inr ⟨d, rfl, rfl, rfl, rfl⟩

/-- Generic invariant transport through the fuelled drain loop. -/
lemma drainLoopFuel_inv (P : OutboundState → Prop)
    (enc : Nat → List Nat → Option (List Nat))
    (payloadType timestampInterval ssrc : Nat) (callEnded : Bool)
    (hstep : ∀ st, FRAME_SIZE ≤ st.pcmBuffer.length → P st →
      P (drainStep enc payloadType timestampInterval ssrc st)) :
    ∀ fuel st, P st →
      P (drainLoopFuel enc payloadType timestampInterval ssrc callEnded fuel st) := by
  intro fuel
  induction fuel with
  | zero => intro st h; exact h
  | succ n ih =>
      intro st h
      simp only [drainLoopFuel]
      by_cases hc : FRAME_SIZE ≤ st.pcmBuffer.length ∧ callEnded = false
      · rw [if_pos hc]; exact ih _ (hstep st hc.1 h)
      · rw [if_neg hc]; exact h

lemma drainLoop_inv (P : OutboundState → Prop)
    (enc : Nat → List Nat → Option (List Nat))
    (payloadType timestampInterval ssrc : Nat) (callEnded : Bool)
    (hstep : ∀ st, FRAME_SIZE ≤ st.pcmBuffer.length → P st →
      P (drainStep enc payloadType timestampInterval ssrc st))
    (st : OutboundState) (h : P st) :
    P (drainLoop enc payloadType timestampInterval ssrc callEnded st) :=
  drainLoopFuel_inv P enc payloadType timestampInterval ssrc callEnded hstep _ st h

/-- With the call-ended snapshot false the drain loop runs until fewer than
`FRAME_SIZE` bytes remain in the accumulation buffer. -/
lemma drainLoopFuel_pcm_lt (enc : Nat → List Nat → Option (List Nat))
    (payloadType timestampInterval ssrc : Nat) :
    ∀ fuel st, st.pcmBuffer.length ≤ fuel →
      (drainLoopFuel enc payloadType timestampInterval ssrc false fuel st).pcmBuffer.length
        < FRAME_SIZE := by
  have hF := FRAME_SIZE_eq
  intro fuel
  induction fuel with
  | zero =>
      intro st h
      simp only [drainLoopFuel]
      omega
  | succ n ih =>
      intro st h
      simp only [drainLoopFuel, and_true]
      by_cases hc : FRAME_SIZE ≤ st.pcmBuffer.length
      · rw [if_pos hc]
        apply ih
        rw [drainStep_pcmBuffer, List.length_drop]
        omega
      · rw [if_neg hc]
        omega

lemma drainLoop_pcm_lt (enc : Nat → List Nat → Option (List Nat))
    (payloadType timestampInterval ssrc : Nat) (st : OutboundState) :
    (drainLoop enc payloadType timestampInterval ssrc false st).pcmBuffer.length
      < FRAME_SIZE :=
  drainLoopFuel_pcm_lt enc payloadType timestampInterval ssrc _ st (Nat.le_refl _)

/-- Drain loop leaves untouched everything except `pcmBuffer`,
`encodedFrames`, `sent`, `sequenceNumber` and `timestamp`; it moves bytes
from `pcmBuffer` to `encodedFrames` in exact `FRAME_SIZE` slices. -/
lemma drainLoop_conserve (enc : Nat → List Nat → Option (List Nat))
    (payloadType timestampInterval ssrc : Nat) (callEnded : Bool)
    (st : OutboundState) :
    (drainLoop enc payloadType timestampInterval ssrc callEnded st).pcmBuffer.length
        + listBytes (drainLoop enc payloadType timestampInterval ssrc callEnded st).encodedFrames
      = st.pcmBuffer.length + listBytes st.encodedFrames
    ∧ (drainLoop enc payloadType timestampInterval ssrc callEnded st).tempBuffer
        = st.tempBuffer
    ∧ (drainLoop enc payloadType timestampInterval ssrc callEnded st).overflowDrops
        = st.overflowDrops
    ∧ (drainLoop enc payloadType timestampInterval ssrc callEnded st).totalBytesProcessed
        = st.totalBytesProcessed
    ∧ (drainLoop enc payloadType timestampInterval ssrc callEnded st).frameCount
        = st.frameCount
    ∧ ((∀ f ∈ st.encodedFrames, f.length = FRAME_SIZE) →
        ∀ f ∈ (drainLoop enc payloadType timestampInterval ssrc callEnded st).encodedFrames,
          f.length = FRAME_SIZE) := by
  apply drainLoop_inv
    (fun s =>
      s.pcmBuffer.length + listBytes s.encodedFrames
          = st.pcmBuffer.length + listBytes st.encodedFrames
      ∧ s.tempBuffer = st.tempBuffer
      ∧ s.overflowDrops = st.overflowDrops
      ∧ s.totalBytesProcessed = st.totalBytesProcessed
      ∧ s.frameCount = st.frameCount
      ∧ ((∀ f ∈ st.encodedFrames, f.length = FRAME_SIZE) →
          ∀ f ∈ s.encodedFrames, f.length = FRAME_SIZE))
    enc payloadType timestampInterval ssrc callEnded
  · intro s hlen hs
    obtain ⟨hsum, htemp, hdrop, htot, hfc, hall⟩ := hs
    obtain ⟨ht', hf', htot', hd', he'⟩ :=
      drainStep_fields enc payloadType timestampInterval ssrc s
    have htake : (s.pcmBuffer.take FRAME_SIZE).length = FRAME_SIZE := by
      rw [List.length_take]
      omega
    refine ⟨?_, ht'.trans htemp, hd'.trans hdrop, htot'.trans htot, hf'.trans hfc, ?_⟩
    · rw [drainStep_pcmBuffer, List.length_drop, he', listBytes_append,
        listBytes_singleton, htake]
      omega
    · intro hstart f hf
      rw [he'] at hf
      rcases List.mem_append.mp hf with hf1 | hf2
      · exact hall hstart f hf1
      · rw [List.mem_singleton.mp hf2]
        exact htake
  · exact ⟨rfl, rfl, rfl, rfl, rfl, fun h => h⟩

lemma overflowCheck_trip (chunkSize : Nat) (st : OutboundState)
    (h : MAX_BUFFER_SIZE < st.pcmBuffer.length + chunkSize) :
    overflowCheck chunkSize st
      = { st with pcmBuffer := [], tempBuffer := [],
                  overflowDrops := st.overflowDrops + 1 } := by
  unfold overflowCheck
  rw [if_pos h]

lemma overflowCheck_notrip (chunkSize : Nat) (st : OutboundState)
    (h : st.pcmBuffer.length + chunkSize ≤ MAX_BUFFER_SIZE) :
    overflowCheck chunkSize st = st := by
  unfold overflowCheck
  rw [if_neg]
  omega

lemma listBytes_nil : listBytes [] = 0 := rfl

/-- mergeTemp keeps the total number of buffered-but-unsent bytes. -/
lemma mergeTemp_unsent (chunk : List Nat) (st : OutboundState) :
    unsentBytes (mergeTemp chunk st) = unsentBytes st + chunk.length := by
  unfold mergeTemp
  split
  · simp only [unsentBytes, List.length_append, listBytes_flatten, listBytes_append,
      listBytes_singleton, listBytes_nil]
    omega
  · simp only [unsentBytes, listBytes_append, listBytes_singleton]
    omega

/-- mergeTemp either concatenates everything (empty pending list afterwards)
or leaves `pcmBuffer` alone with combined unsent bytes below `FRAME_SIZE`. -/
lemma mergeTemp_shape (chunk : List Nat) (st : OutboundState) :
    (mergeTemp chunk st).tempBuffer = []
    ∨ ((mergeTemp chunk st).pcmBuffer = st.pcmBuffer
        ∧ unsentBytes st + chunk.length < FRAME_SIZE) := by
  unfold mergeTemp
  split
  · exact Or.inl rfl
  · rename_i hcond
    push_neg at hcond
    refine Or.inr ⟨rfl, ?_⟩
    have h2 := hcond.2
    rw [foldl_add_length, listBytes_append, listBytes_singleton] at h2
    simp only [unsentBytes]
    omega

lemma mergeTemp_fields (chunk : List Nat) (st : OutboundState) :
    (mergeTemp chunk st).encodedFrames = st.encodedFrames
    ∧ (mergeTemp chunk st).sent = st.sent
    ∧ (mergeTemp chunk st).sequenceNumber = st.sequenceNumber
    ∧ (mergeTemp chunk st).timestamp = st.timestamp
    ∧ (mergeTemp chunk st).overflowDrops = st.overflowDrops
    ∧ (mergeTemp chunk st).totalBytesProcessed = st.totalBytesProcessed
    ∧ (mergeTemp chunk st).frameCount = st.frameCount := by
  unfold mergeTemp
  split <;> exact ⟨rfl, rfl, rfl, rfl, rfl, rfl, rfl⟩

lemma accumulateChunk_fields (chunk : List Nat) (st : OutboundState) :
    (accumulateChunk chunk st).encodedFrames = st.encodedFrames
    ∧ (accumulateChunk chunk st).sent = st.sent
    ∧ (accumulateChunk chunk st).sequenceNumber = st.sequenceNumber
    ∧ (accumulateChunk chunk st).timestamp = st.timestamp
    ∧ (accumulateChunk chunk st).totalBytesProcessed
        = st.totalBytesProcessed + chunk.length
    ∧ (accumulateChunk chunk st).frameCount = st.frameCount + 1 := by
  unfold accumulateChunk overflowCheck
  split <;>
    · obtain ⟨h1, h2, h3, h4, h5, h6, h7⟩ := mergeTemp_fields chunk _
      exact ⟨h1, h2, h3, h4, h6, h7⟩

lemma accumulateChunk_drops (chunk : List Nat) (st : OutboundState) :
    (accumulateChunk chunk st).overflowDrops
      = if MAX_BUFFER_SIZE < st.pcmBuffer.length + chunk.length
        then st.overflowDrops + 1 else st.overflowDrops := by
  unfold accumulateChunk overflowCheck
  split <;>
    · rw [(mergeTemp_fields chunk _).2.2.2.2.1]

/-- Without an overflow trip, accumulation adds exactly the chunk's bytes to
the unsent pool. -/
lemma accumulateChunk_unsent_notrip (chunk : List Nat) (st : OutboundState)
    (h : st.pcmBuffer.length + chunk.length ≤ MAX_BUFFER_SIZE) :
    unsentBytes (accumulateChunk chunk st) = unsentBytes st + chunk.length := by
  unfold accumulateChunk
  have hoc := overflowCheck_notrip chunk.length
    { st with frameCount := st.frameCount + 1,
              totalBytesProcessed := st.totalBytesProcessed + chunk.length }
    (by simpa using h)
  rw [hoc, mergeTemp_unsent]
  simp [unsentBytes]

lemma accumulateChunk_shape_notrip (chunk : List Nat) (st : OutboundState)
    (h : st.pcmBuffer.length + chunk.length ≤ MAX_BUFFER_SIZE) :
    (accumulateChunk chunk st).tempBuffer = []
    ∨ ((accumulateChunk chunk st).pcmBuffer = st.pcmBuffer
        ∧ unsentBytes (accumulateChunk chunk st) < FRAME_SIZE) := by
  unfold accumulateChunk
  have hoc := overflowCheck_notrip chunk.length
    { st with frameCount := st.frameCount + 1,
              totalBytesProcessed := st.totalBytesProcessed + chunk.length }
    (by simpa using h)
  rw [hoc]
  have hms := mergeTemp_shape chunk
    { st with frameCount := st.frameCount + 1,
              totalBytesProcessed := st.totalBytesProcessed + chunk.length }
  rcases hms with h1 | ⟨h1, h2⟩
  · exact Or.inl h1
  · refine Or.inr ⟨h1, ?_⟩
    rw [mergeTemp_unsent]
    exact h2

/-- Generic invariant transport through the whole outer loop. -/
lemma foldl_inv {α β : Type} (P : α → Prop) (f : α → β → α)
    (hstep : ∀ a b, P a → P (f a b)) :
    ∀ (l : List β) (a : α), P a → P (l.foldl f a) := by
  intro l
  induction l with
  | nil => intro a h; exact h
  | cons b t ih => intro a h; exact ih _ (hstep a b h)

lemma processFrame_false (enc : Nat → List Nat → Option (List Nat))
    (payloadType timestampInterval ssrc : Nat) (st : OutboundState) (c : List Nat) :
    processFrame enc payloadType timestampInterval ssrc false st c
      = drainLoop enc payloadType timestampInterval ssrc false (accumulateChunk c st) := by
  unfold processFrame
  simp

lemma processFrame_true (enc : Nat → List Nat → Option (List Nat))
    (payloadType timestampInterval ssrc : Nat) (st : OutboundState) (c : List Nat) :
    processFrame enc payloadType timestampInterval ssrc true st c = st := by
  unfold processFrame
  simp

/-- A drain run on a buffer already below `FRAME_SIZE` does nothing. -/
lemma drainLoop_no_frame (enc : Nat → List Nat → Option (List Nat))
    (payloadType timestampInterval ssrc : Nat) (callEnded : Bool)
    (st : OutboundState) (h : st.pcmBuffer.length < FRAME_SIZE) :
    drainLoop enc payloadType timestampInterval ssrc callEnded st = st := by
  unfold drainLoop
  rcases hn : st.pcmBuffer.length with _ | m
  · rfl
  · simp only [drainLoopFuel]
    rw [if_neg]
    rintro ⟨h1, -⟩
    omega

lemma processFrame_drops (enc : Nat → List Nat → Option (List Nat))
    (payloadType timestampInterval ssrc : Nat) (c : List Nat) (st : OutboundState) :
    (processFrame enc payloadType timestampInterval ssrc false st c).overflowDrops
      = if MAX_BUFFER_SIZE < st.pcmBuffer.length + c.length
        then st.overflowDrops + 1 else st.overflowDrops := by
  rw [processFrame_false,
    (drainLoop_conserve enc payloadType timestampInterval ssrc false _).2.2.1,
    accumulateChunk_drops]

lemma processFrame_total (enc : Nat → List Nat → Option (List Nat))
    (payloadType timestampInterval ssrc : Nat) (c : List Nat) (st : OutboundState) :
    (processFrame enc payloadType timestampInterval ssrc false st c).totalBytesProcessed
      = st.totalBytesProcessed + c.length := by
  rw [processFrame_false,
    (drainLoop_conserve enc payloadType timestampInterval ssrc false _).2.2.2.1,
    (accumulateChunk_fields c st).2.2.2.2.1]

lemma processFrame_drops_mono (enc : Nat → List Nat → Option (List Nat))
    (payloadType timestampInterval ssrc : Nat) (callEnded : Bool)
    (c : List Nat) (st : OutboundState) :
    st.overflowDrops
      ≤ (processFrame enc payloadType timestampInterval ssrc callEnded st c).overflowDrops := by
  cases callEnded
  · rw [processFrame_drops]
    split <;> omega
  · rw [processFrame_true]

lemma run_drops_mono (enc : Nat → List Nat → Option (List Nat))
    (payloadType timestampInterval ssrc : Nat) (callEnded : Bool) :
    ∀ (l : List (List Nat)) (st : OutboundState),
      st.overflowDrops
        ≤ (l.foldl (processFrame enc payloadType timestampInterval ssrc callEnded)
            st).overflowDrops := by
  intro l
  induction l with
  | nil => intro st; exact Nat.le_refl _
  | cons c t ih =>
      intro st
      exact Nat.le_trans
        (processFrame_drops_mono enc payloadType timestampInterval ssrc callEnded c st)
        (ih _)

/-- Invariant for the no-data-loss argument: fewer than one frame's worth of
bytes is pending, every byte received was either handed to the encoder or is
still pending, and every buffer handed to the encoder was a full frame. -/
def Jinv (st : OutboundState) : Prop :=
  unsentBytes st < FRAME_SIZE
  ∧ unsentBytes st + listBytes st.encodedFrames = st.totalBytesProcessed
  ∧ ∀ f ∈ st.encodedFrames, f.length = FRAME_SIZE

lemma processFrame_Jinv (enc : Nat → List Nat → Option (List Nat))
    (payloadType timestampInterval ssrc : Nat) (c : List Nat) (st : OutboundState)
    (hJ : Jinv st) (hnotrip : st.pcmBuffer.length + c.length ≤ MAX_BUFFER_SIZE) :
    Jinv (processFrame enc payloadType timestampInterval ssrc false st c) := by
  obtain ⟨hJ1, hJ2, hJ3⟩ := hJ
  rw [processFrame_false]
  have hfields := accumulateChunk_fields c st
  have huns := accumulateChunk_unsent_notrip c st hnotrip
  have hcons := drainLoop_conserve enc payloadType timestampInterval ssrc false
    (accumulateChunk c st)
  obtain ⟨hsum, htemp, hdrop, htot, hfc, hall⟩ := hcons
  rcases accumulateChunk_shape_notrip c st hnotrip with hsh | ⟨hsh1, hsh2⟩
  · -- the pending list was merged away; the drain runs the buffer below 640
    have hlt := drainLoop_pcm_lt enc payloadType timestampInterval ssrc
      (accumulateChunk c st)
    have huns' : unsentBytes (accumulateChunk c st)
        = (accumulateChunk c st).pcmBuffer.length := by
      simp [unsentBytes, hsh, listBytes_nil]
    refine ⟨?_, ?_, ?_⟩
    · simp only [unsentBytes, htemp, hsh, listBytes_nil]
      omega
    · simp only [unsentBytes, htemp, hsh, listBytes_nil]
      rw [htot, hfields.2.2.2.2.1]
      have := hsum
      rw [hfields.1] at this
      omega
    · rw [hfields.1] at hall
      exact hall hJ3
  · -- nothing was merged, so fewer than 640 bytes are buffered and the
    -- drain loop does not run
    have hid := drainLoop_no_frame enc payloadType timestampInterval ssrc false
      (accumulateChunk c st) (by
        rw [hsh1]
        have : st.pcmBuffer.length ≤ unsentBytes st := by
          simp [unsentBytes]
        omega)
    rw [hid]
    refine ⟨hsh2, ?_, ?_⟩
    · rw [huns, hfields.1, hfields.2.2.2.2.1]
      omega
    · rw [hfields.1]
      exact hJ3

lemma run_Jinv (enc : Nat → List Nat → Option (List Nat))
    (payloadType timestampInterval ssrc : Nat) :
    ∀ (l : List (List Nat)) (st : OutboundState), Jinv st →
      (l.foldl (processFrame enc payloadType timestampInterval ssrc false)
          st).overflowDrops = st.overflowDrops →
      Jinv (l.foldl (processFrame enc payloadType timestampInterval ssrc false) st)
      ∧ (l.foldl (processFrame enc payloadType timestampInterval ssrc false)
          st).totalBytesProcessed = st.totalBytesProcessed + listBytes l := by
  intro l
  induction l with
  | nil =>
      intro st hJ _
      exact ⟨hJ, by simp [listBytes]⟩
  | cons c t ih =>
      intro st hJ hdrops
      simp only [List.foldl_cons] at hdrops ⊢
      have hm1 := processFrame_drops_mono enc payloadType timestampInterval ssrc false c st
      have hm2 := run_drops_mono enc payloadType timestampInterval ssrc false t
        (processFrame enc payloadType timestampInterval ssrc false st c)
      have heq : (processFrame enc payloadType timestampInterval ssrc false
          st c).overflowDrops = st.overflowDrops := by omega
      have hnotrip : st.pcmBuffer.length + c.length ≤ MAX_BUFFER_SIZE := by
        have hd := processFrame_drops enc payloadType timestampInterval ssrc c st
        rw [heq] at hd
        by_cases hx : MAX_BUFFER_SIZE < st.pcmBuffer.length + c.length
        · rw [if_pos hx] at hd
          omega
        · omega
      have hJ1 := processFrame_Jinv enc payloadType timestampInterval ssrc c st hJ hnotrip
      have htot1 := processFrame_total enc payloadType timestampInterval ssrc c st
      have hrec := ih (processFrame enc payloadType timestampInterval ssrc false st c)
        hJ1 (by omega)
      refine ⟨hrec.1, ?_⟩
      rw [hrec.2, htot1]
      simp only [listBytes, List.map_cons, List.sum_cons]
      omega

/-- Header contract of the i-th packet handed to `sendPacket` (0-based):
sequence number `(seq0 + i) % 65536`, timestamp `ts0 + i * interval`, the
stream's ssrc, version 2 and no padding/extension/marker, with the codec's
payload type. -/
def packetHeaderSpec (payloadType timestampInterval ssrc seq0 ts0 : Nat)
    (i : Nat) (p : RtpPacket) : Prop :=
  p.header.sequenceNumber = (seq0 + i) % 65536
  ∧ p.header.timestamp = ts0 + i * timestampInterval
  ∧ p.header.ssrc = ssrc
  ∧ p.header.version = 2
  ∧ p.header.padding = false
  ∧ p.header.extension = false
  ∧ p.header.marker = false
  ∧ p.header.payloadType = payloadType

/-- Running invariant tying the mutable sequence number and timestamp to the
number of packets sent so far, plus the header contract of every packet
already sent. -/
def sentSpecInv (payloadType timestampInterval ssrc seq0 ts0 : Nat)
    (st : OutboundState) : Prop :=
  st.sequenceNumber = (seq0 + st.sent.length) % 65536
  ∧ st.timestamp = ts0 + st.sent.length * timestampInterval
  ∧ ∀ i (h : i < st.sent.length),
      packetHeaderSpec payloadType timestampInterval ssrc seq0 ts0 i
        (st.sent.get ⟨i, h⟩)

lemma get_congr {α : Type} (l l' : List α) (h : l = l') (i : Nat)
    (hi : i < l.length) (hi' : i < l'.length) :
    l.get ⟨i, hi⟩ = l'.get ⟨i, hi'⟩ := by
  subst h
  rfl

lemma sentSpecInv_congr (payloadType timestampInterval ssrc seq0 ts0 : Nat)
    (st st' : OutboundState) (hs : st'.sent = st.sent)
    (hq : st'.sequenceNumber = st.sequenceNumber)
    (ht : st'.timestamp = st.timestamp)
    (h : sentSpecInv payloadType timestampInterval ssrc seq0 ts0 st) :
    sentSpecInv payloadType timestampInterval ssrc seq0 ts0 st' := by
  obtain ⟨h1, h2, h3⟩ := h
  refine ⟨by rw [hq, hs]; exact h1, by rw [ht, hs]; exact h2, ?_⟩
  intro i hi
  have hi' : i < st.sent.length := by rw [hs] at hi; exact hi
  rw [get_congr st'.sent st.sent hs i hi hi']
  exact h3 i hi'

lemma drainStep_sentSpec (enc : Nat → List Nat → Option (List Nat))
    (payloadType timestampInterval ssrc seq0 ts0 : Nat) (st : OutboundState)
    (h : sentSpecInv payloadType timestampInterval ssrc seq0 ts0 st) :
    sentSpecInv payloadType timestampInterval ssrc seq0 ts0
      (drainStep enc payloadType timestampInterval ssrc st) := by
  obtain ⟨hseq, hts, hidx⟩ := h
  rcases drainStep_sent_cases enc payloadType timestampInterval ssrc st with
    ⟨-, hs, hq, ht⟩ | ⟨d, -, hs, hq, ht⟩
  · exact sentSpecInv_congr payloadType timestampInterval ssrc seq0 ts0 st _ hs hq ht
      ⟨hseq, hts, hidx⟩
  · have hlen : (drainStep enc payloadType timestampInterval ssrc st).sent.length
        = st.sent.length + 1 := by
      rw [hs, List.length_append, List.length_singleton]
    refine ⟨?_, ?_, ?_⟩
    · rw [hq, hlen, hseq]
      have hm : (seq0 + st.sent.length) % 65536 < 65536 :=
        Nat.mod_lt _ (by omega)
      split <;> omega
    · rw [ht, hlen, hts]
      ring
    · intro i hi
      have hi2 : i < (st.sent
          ++ [mkRtpPacket payloadType st.sequenceNumber st.timestamp ssrc d]).length := by
        rw [← hs]
        exact hi
      rw [get_congr _ _ hs i hi hi2]
      rw [hlen] at hi
      by_cases hlt : i < st.sent.length
      · have hget : (st.sent
            ++ [mkRtpPacket payloadType st.sequenceNumber st.timestamp ssrc d]).get ⟨i, hi2⟩
            = st.sent.get ⟨i, hlt⟩ := by
          simp [List.get_eq_getElem, List.getElem_append_left hlt]
        rw [hget]
        exact hidx i hlt
      · have hieq : i = st.sent.length := by omega
        subst hieq
        have hget : (st.sent
            ++ [mkRtpPacket payloadType st.sequenceNumber st.timestamp ssrc d]).get
              ⟨st.sent.length, hi2⟩
            = mkRtpPacket payloadType st.sequenceNumber st.timestamp ssrc d := by
          simp [List.get_eq_getElem]
        rw [hget]
        exact ⟨by simp [mkRtpPacket, hseq],
          by simp [mkRtpPacket, hts],
          by simp [mkRtpPacket], by simp [mkRtpPacket], by simp [mkRtpPacket],
          by simp [mkRtpPacket], by simp [mkRtpPacket], by simp [mkRtpPacket]⟩

lemma processFrame_sentSpec (enc : Nat → List Nat → Option (List Nat))
    (payloadType timestampInterval ssrc seq0 ts0 : Nat) (callEnded : Bool)
    (st : OutboundState) (c : List Nat)
    (h : sentSpecInv payloadType timestampInterval ssrc seq0 ts0 st) :
    sentSpecInv payloadType timestampInterval ssrc seq0 ts0
      (processFrame enc payloadType timestampInterval ssrc callEnded st c) := by
  cases callEnded
  · rw [processFrame_false]
    have hacc := accumulateChunk_fields c st
    have hstep : sentSpecInv payloadType timestampInterval ssrc seq0 ts0
        (accumulateChunk c st) :=
      sentSpecInv_congr payloadType timestampInterval ssrc seq0 ts0 st _
        hacc.2.1 hacc.2.2.1 hacc.2.2.2.1 h
    exact drainLoop_inv
      (sentSpecInv payloadType timestampInterval ssrc seq0 ts0)
      enc payloadType timestampInterval ssrc false
      (fun s _ hs => drainStep_sentSpec enc payloadType timestampInterval ssrc seq0 ts0 s hs)
      _ hstep
  · rw [processFrame_true]
    exact h

/-- Every run of the outbound pipeline satisfies the header contract for all
packets it sent, with `seq0 = nowSec % 65536` and `ts0 = nowSec`. -/
lemma run_sentSpec (disposed callEnded : Bool)
    (nowSec payloadType timestampInterval : Nat) (r : ℚ)
    (enc : Nat → List Nat → Option (List Nat)) (audioStream : List (List Nat)) :
    sentSpecInv payloadType timestampInterval (randomInt r) (nowSec % 65536) nowSec
      (sendLivekitAudioStreamToCallSession disposed callEnded nowSec payloadType
        timestampInterval r enc audioStream) := by
  have hinit : sentSpecInv payloadType timestampInterval (randomInt r)
      (nowSec % 65536) nowSec (initState nowSec) := by
    refine ⟨?_, ?_, ?_⟩
    · simp only [initState, List.length_nil, Nat.add_zero]
      omega
    · simp [initState]
    · intro i hi
      simp [initState] at hi
  unfold sendLivekitAudioStreamToCallSession
  split
  · exact hinit
  · exact foldl_inv
      (sentSpecInv payloadType timestampInterval (randomInt r) (nowSec % 65536) nowSec)
      (processFrame enc payloadType timestampInterval (randomInt r) callEnded)
      (fun a b ha => processFrame_sentSpec enc payloadType timestampInterval
        (randomInt r) (nowSec % 65536) nowSec callEnded a b ha)
      audioStream (initState nowSec) hinit

lemma int16Samples_length (pcm : List Nat) :
    (int16Samples pcm).length = pcm.length / 2 := by
  simp [int16Samples]

/-- One iteration of the drain loop can be peeled off whenever a full frame
is buffered and the call-ended snapshot is false. -/
lemma drainLoop_advance (enc : Nat → List Nat → Option (List Nat))
    (payloadType timestampInterval ssrc : Nat) (st : OutboundState)
    (hlen : FRAME_SIZE ≤ st.pcmBuffer.length) :
    drainLoop enc payloadType timestampInterval ssrc false st
      = drainLoop enc payloadType timestampInterval ssrc false
          (drainStep enc payloadType timestampInterval ssrc st) := by
  have hF := FRAME_SIZE_eq
  unfold drainLoop
  rcases hn : st.pcmBuffer.length with _ | m
  · omega
  · simp only [drainLoopFuel, and_true]
    rw [if_pos hlen]
    apply drainLoopFuel_congr
    · rw [drainStep_pcmBuffer, List.length_drop]
      omega
    · exact Nat.le_refl _

/-! Claim theorems. -/

/-- C1: the spec claims that once the call-ended flag is set by the busy or
disposed lifecycle handler, `sendLivekitAudioStreamToCallSession` makes no
further `sendPacket` calls, the flag being checked at outer-loop and
inner-loop entry.  In the source the flag is a member of a destructured
options object, so the pipeline receives a by-value snapshot at invocation
time and never re-reads the closed-over variable (and `callSession.disposed`
is read only once, before the loop).  This theorem evaluates the code at the
failing input: a run whose snapshot is `false` sends one packet per full
frame for the whole stream — a mid-stream flip of the outer flag cannot
suppress any of them because no later read of the flag exists — while only a
snapshot already `true` at invocation yields zero sends. -/
theorem c1_call_ended_flag_never_reobserved :
    (sendLivekitAudioStreamToCallSession false false 0 9 160 0
      (fun _ _ => some [1])
      [List.replicate 640 0, List.replicate 640 0]).sent.length = 2
    ∧ (sendLivekitAudioStreamToCallSession false true 0 9 160 0
      (fun _ _ => some [1])
      [List.replicate 640 0, List.replicate 640 0]).sent.length = 0 := by
  constructor
  · decide
  · decide

/-- C2 counterexample: the claim says that whenever the accumulated unsent
bytes would exceed `MAX_BUFFER_SIZE = 3200`, both the accumulation buffer and
the pending list are fully discarded before the next accumulation step, so
buffered state never grows past that ceiling.  After a 100-byte frame the
pipeline holds 100 unsent bytes (in the pending list); a following 3150-byte
frame makes the would-be total 3250 > 3200, yet the source's trip condition
(`pcmBuffer.length + chunkSize > MAX_BUFFER_SIZE`, ignoring pending-list
bytes) does not fire: nothing is discarded and the accumulation step leaves
3250 > 3200 bytes buffered. -/
theorem c2_counterexample :
    MAX_BUFFER_SIZE
        < unsentBytes (processFrame (fun _ _ => some [1]) 9 160 1024 false
            (initState 0) (List.replicate 100 0)) + (List.replicate 3150 (0 : Nat)).length
    ∧ (accumulateChunk (List.replicate 3150 0)
        (processFrame (fun _ _ => some [1]) 9 160 1024 false
          (initState 0) (List.replicate 100 0))).overflowDrops = 0
    ∧ MAX_BUFFER_SIZE
        < (accumulateChunk (List.replicate 3150 0)
            (processFrame (fun _ _ => some [1]) 9 160 1024 false
              (initState 0) (List.replicate 100 0))).pcmBuffer.length := by
  have hs1p : (processFrame (fun _ _ => some [1]) 9 160 1024 false
      (initState 0) (List.replicate 100 0)).pcmBuffer = [] := by decide
  have hs1d : (processFrame (fun _ _ => some [1]) 9 160 1024 false
      (initState 0) (List.replicate 100 0)).overflowDrops = 0 := by decide
  have huns1 : unsentBytes (processFrame (fun _ _ => some [1]) 9 160 1024 false
      (initState 0) (List.replicate 100 0)) = 100 := by decide
  generalize hch : List.replicate 3150 (0 : Nat) = ch
  have hchlen : ch.length = 3150 := by rw [← hch, List.length_replicate]
  have hMB := MAX_BUFFER_SIZE_eq
  have hF := FRAME_SIZE_eq
  refine ⟨?_, ?_, ?_⟩
  · rw [huns1, hchlen]
    omega
  · rw [accumulateChunk_drops, hs1p, hs1d, hchlen]
    simp only [List.length_nil]
    rw [if_neg]
    omega
  · have hnotrip : (processFrame (fun _ _ => some [1]) 9 160 1024 false
        (initState 0) (List.replicate 100 0)).pcmBuffer.length
        + ch.length ≤ MAX_BUFFER_SIZE := by
      rw [hs1p, hchlen]
      simp only [List.length_nil]
      omega
    have huns2 := accumulateChunk_unsent_notrip ch _ hnotrip
    rw [huns1, hchlen] at huns2
    rcases accumulateChunk_shape_notrip ch _ hnotrip with hsh | ⟨-, hlt⟩
    · have hpt : unsentBytes (accumulateChunk ch
          (processFrame (fun _ _ => some [1]) 9 160 1024 false
            (initState 0) (List.replicate 100 0)))
          = (accumulateChunk ch
              (processFrame (fun _ _ => some [1]) 9 160 1024 false
                (initState 0) (List.replicate 100 0))).pcmBuffer.length := by
        unfold unsentBytes
        rw [hsh, listBytes_nil]
        exact Nat.add_zero _
      omega
    · rw [huns2] at hlt
      omega

/-- C2 amended: the discard decision compares only the merged accumulation
buffer plus the incoming chunk against `MAX_BUFFER_SIZE`, ignoring bytes in
the pending list; when it fires, the previous buffer and pending list are
fully discarded and the incoming chunk alone is accumulated, so the buffered
bytes right after a trip equal the chunk's size (and hence can themselves
exceed 3200 for a chunk bigger than the ceiling); processing continues with
subsequent frames. -/
theorem c2_amended_overflow_guard (st : OutboundState) (chunk : List Nat)
    (h : MAX_BUFFER_SIZE < st.pcmBuffer.length + chunk.length) :
    unsentBytes (accumulateChunk chunk st) = chunk.length
    ∧ (accumulateChunk chunk st).overflowDrops = st.overflowDrops + 1 := by
  unfold accumulateChunk
  have hoc := overflowCheck_trip chunk.length
    { st with frameCount := st.frameCount + 1,
              totalBytesProcessed := st.totalBytesProcessed + chunk.length }
    (by simpa using h)
  rw [hoc]
  constructor
  · rw [mergeTemp_unsent]
    simp [unsentBytes, listBytes_nil]
  · rw [(mergeTemp_fields chunk _).2.2.2.2.1]

theorem c2_amended_overflow_guard_witness :
    MAX_BUFFER_SIZE
        < ({ initState 0 with pcmBuffer := List.replicate 3150 0 }
            : OutboundState).pcmBuffer.length + (List.replicate 100 (0 : Nat)).length
    ∧ (unsentBytes (accumulateChunk (List.replicate 100 0)
          { initState 0 with pcmBuffer := List.replicate 3150 0 })
        = (List.replicate 100 (0 : Nat)).length
      ∧ (accumulateChunk (List.replicate 100 0)
          { initState 0 with pcmBuffer := List.replicate 3150 0 }).overflowDrops
        = ({ initState 0 with pcmBuffer := List.replicate 3150 0 }
            : OutboundState).overflowDrops + 1) :=
  ⟨by
    rw [MAX_BUFFER_SIZE_eq]
    dsimp only
    rw [List.length_replicate, List.length_replicate]
    omega,
    c2_amended_overflow_guard { initState 0 with pcmBuffer := List.replicate 3150 0 }
      (List.replicate 100 0) (by
        rw [MAX_BUFFER_SIZE_eq]
        dsimp only
        rw [List.length_replicate, List.length_replicate]
        omega)⟩

/-- C3: in a run with the disposed flag false, the call-ended snapshot false
and no overflow trip, the bytes handed to the encoder total the received
bytes minus the sub-frame remainder, every buffer handed to the encoder is
exactly one `FRAME_SIZE` frame, and each drain iteration shrinks the
accumulation buffer by exactly `FRAME_SIZE` bytes, never partially. -/
theorem c3_no_data_loss (nowSec payloadType timestampInterval : Nat) (r : ℚ)
    (enc : Nat → List Nat → Option (List Nat)) (audioStream : List (List Nat))
    (hnodrop : (sendLivekitAudioStreamToCallSession false false nowSec payloadType
        timestampInterval r enc audioStream).overflowDrops = 0) :
    listBytes (sendLivekitAudioStreamToCallSession false false nowSec payloadType
        timestampInterval r enc audioStream).encodedFrames
      = listBytes audioStream - listBytes audioStream % FRAME_SIZE
    ∧ (∀ f ∈ (sendLivekitAudioStreamToCallSession false false nowSec payloadType
        timestampInterval r enc audioStream).encodedFrames, f.length = FRAME_SIZE)
    ∧ (∀ st : OutboundState, FRAME_SIZE ≤ st.pcmBuffer.length →
        (drainStep enc payloadType timestampInterval (randomInt r) st).pcmBuffer.length
          = st.pcmBuffer.length - FRAME_SIZE) := by
  have hrun : sendLivekitAudioStreamToCallSession false false nowSec payloadType
      timestampInterval r enc audioStream
      = audioStream.foldl
          (processFrame enc payloadType timestampInterval (randomInt r) false)
          (initState nowSec) := rfl
  rw [hrun] at hnodrop ⊢
  have hinitJ : Jinv (initState nowSec) := by
    refine ⟨?_, ?_, ?_⟩
    · rw [FRAME_SIZE_eq]
      simp [unsentBytes, initState, listBytes]
    · simp [unsentBytes, initState, listBytes]
    · intro f hf
      simp [initState] at hf
  have hJ := run_Jinv enc payloadType timestampInterval (randomInt r) audioStream
    (initState nowSec) hinitJ (by rw [hnodrop]; rfl)
  obtain ⟨⟨hu1, hu2, hu3⟩, htot⟩ := hJ
  refine ⟨?_, hu3, ?_⟩
  · have hcnt := listBytes_all_frames _ FRAME_SIZE hu3
    have htot0 : (initState nowSec).totalBytesProcessed = 0 := rfl
    rw [htot0] at htot
    rw [FRAME_SIZE_eq] at hu1 hcnt ⊢
    omega
  · intro st hlen
    rw [drainStep_pcmBuffer, List.length_drop]

theorem c3_no_data_loss_witness :
    (sendLivekitAudioStreamToCallSession false false 5 9 160 0 (fun _ _ => some [1])
        [List.replicate 700 0]).overflowDrops = 0
    ∧ (listBytes (sendLivekitAudioStreamToCallSession false false 5 9 160 0
          (fun _ _ => some [1]) [List.replicate 700 0]).encodedFrames
        = listBytes [List.replicate 700 (0 : Nat)]
            - listBytes [List.replicate 700 (0 : Nat)] % FRAME_SIZE
      ∧ (∀ f ∈ (sendLivekitAudioStreamToCallSession false false 5 9 160 0
          (fun _ _ => some [1]) [List.replicate 700 0]).encodedFrames,
            f.length = FRAME_SIZE)
      ∧ (∀ st : OutboundState, FRAME_SIZE ≤ st.pcmBuffer.length →
          (drainStep (fun _ _ => some [1]) 9 160 (randomInt 0) st).pcmBuffer.length
            = st.pcmBuffer.length - FRAME_SIZE)) :=
  ⟨by decide,
    c3_no_data_loss 5 9 160 0 (fun _ _ => some [1]) [List.replicate 700 0] (by decide)⟩

/-- C4: in an outbound run the Nth packet handed to `sendPacket` (0-based
index N here, so the claim's 1-based "Nth" is N+1) carries sequence number
`(initial + N) % 65536` with the initial sequence number `nowSec % 65536`;
the emitted sequence number is always below 65536 (the increment wraps
65535 to 0), and the Nth timestamp is `nowSec + N * timestampInterval`. -/
theorem c4_sequence_and_timestamp (nowSec payloadType timestampInterval : Nat) (r : ℚ)
    (enc : Nat → List Nat → Option (List Nat)) (audioStream : List (List Nat)) (N : Nat)
    (hN : N < (sendLivekitAudioStreamToCallSession false false nowSec payloadType
        timestampInterval r enc audioStream).sent.length) :
    ((sendLivekitAudioStreamToCallSession false false nowSec payloadType
        timestampInterval r enc audioStream).sent.get ⟨N, hN⟩).header.sequenceNumber
      = (nowSec % 65536 + N) % 65536
    ∧ ((sendLivekitAudioStreamToCallSession false false nowSec payloadType
        timestampInterval r enc audioStream).sent.get ⟨N, hN⟩).header.sequenceNumber
      < 65536
    ∧ ((sendLivekitAudioStreamToCallSession false false nowSec payloadType
        timestampInterval r enc audioStream).sent.get ⟨N, hN⟩).header.timestamp
      = nowSec + N * timestampInterval := by
  have h := run_sentSpec false false nowSec payloadType timestampInterval r enc audioStream
  have hp := h.2.2 N hN
  refine ⟨hp.1, ?_, hp.2.1⟩
  rw [hp.1]
  exact Nat.mod_lt _ (by omega)

theorem c4_sequence_and_timestamp_witness :
    ((sendLivekitAudioStreamToCallSession false false 65535 9 160 0 (fun _ _ => some [1])
        [List.replicate 640 0, List.replicate 640 0]).sent.get
          ⟨1, by decide⟩).header.sequenceNumber = (65535 % 65536 + 1) % 65536
    ∧ ((sendLivekitAudioStreamToCallSession false false 65535 9 160 0 (fun _ _ => some [1])
        [List.replicate 640 0, List.replicate 640 0]).sent.get
          ⟨1, by decide⟩).header.sequenceNumber < 65536
    ∧ ((sendLivekitAudioStreamToCallSession false false 65535 9 160 0 (fun _ _ => some [1])
        [List.replicate 640 0, List.replicate 640 0]).sent.get
          ⟨1, by decide⟩).header.timestamp = 65535 + 1 * 160 :=
  c4_sequence_and_timestamp 65535 9 160 0 (fun _ _ => some [1])
    [List.replicate 640 0, List.replicate 640 0] 1 (by decide)

/-- Encoder oracle that always throws, for the C5 witness. -/
def encNone : Nat → List Nat → Option (List Nat) := fun _ _ => none

/-- Concrete state holding exactly one full frame, for the C5 witness. -/
def c5State : OutboundState := { initState 0 with pcmBuffer := List.replicate 640 0 }

/-- C5: when the encoder throws on a frame inside the send loop, the error is
caught: no packet is sent for that frame, the sequence number and timestamp
do not advance, the 640 bytes already sliced off the buffer are not restored
(the frame is dropped, not retried — the encoder was handed it exactly once),
and the loop continues with the next iteration from the advanced buffer. -/
theorem c5_encoder_throw_drops_frame (enc : Nat → List Nat → Option (List Nat))
    (payloadType timestampInterval ssrc : Nat) (st : OutboundState)
    (hlen : FRAME_SIZE ≤ st.pcmBuffer.length)
    (hfail : enc st.encodedFrames.length (st.pcmBuffer.take FRAME_SIZE) = none) :
    (drainStep enc payloadType timestampInterval ssrc st).sent = st.sent
    ∧ (drainStep enc payloadType timestampInterval ssrc st).sequenceNumber
        = st.sequenceNumber
    ∧ (drainStep enc payloadType timestampInterval ssrc st).timestamp = st.timestamp
    ∧ (drainStep enc payloadType timestampInterval ssrc st).pcmBuffer
        = st.pcmBuffer.drop FRAME_SIZE
    ∧ (drainStep enc payloadType timestampInterval ssrc st).encodedFrames
        = st.encodedFrames ++ [st.pcmBuffer.take FRAME_SIZE]
    ∧ drainLoop enc payloadType timestampInterval ssrc false st
        = drainLoop enc payloadType timestampInterval ssrc false
            (drainStep enc payloadType timestampInterval ssrc st) := by
  have hstep : drainStep enc payloadType timestampInterval ssrc st
      = { st with pcmBuffer := st.pcmBuffer.drop FRAME_SIZE,
                  encodedFrames := st.encodedFrames ++ [st.pcmBuffer.take FRAME_SIZE] } := by
    unfold drainStep
    rw [hfail]
  refine ⟨?_, ?_, ?_, ?_, ?_,
    drainLoop_advance enc payloadType timestampInterval ssrc st hlen⟩
  all_goals rw [hstep]

theorem c5_encoder_throw_drops_frame_witness :
    FRAME_SIZE ≤ c5State.pcmBuffer.length
    ∧ encNone c5State.encodedFrames.length (c5State.pcmBuffer.take FRAME_SIZE) = none
    ∧ ((drainStep encNone 9 160 1024 c5State).sent = c5State.sent
      ∧ (drainStep encNone 9 160 1024 c5State).sequenceNumber = c5State.sequenceNumber
      ∧ (drainStep encNone 9 160 1024 c5State).timestamp = c5State.timestamp
      ∧ (drainStep encNone 9 160 1024 c5State).pcmBuffer
          = c5State.pcmBuffer.drop FRAME_SIZE
      ∧ (drainStep encNone 9 160 1024 c5State).encodedFrames
          = c5State.encodedFrames ++ [c5State.pcmBuffer.take FRAME_SIZE]
      ∧ drainLoop encNone 9 160 1024 false c5State
          = drainLoop encNone 9 160 1024 false (drainStep encNone 9 160 1024 c5State)) :=
  ⟨by
    unfold c5State
    rw [FRAME_SIZE_eq]
    dsimp only
    rw [List.length_replicate],
  rfl,
  c5_encoder_throw_drops_frame encNone 9 160 1024 c5State
    (by
      unfold c5State
      rw [FRAME_SIZE_eq]
      dsimp only
      rw [List.length_replicate])
    rfl⟩

/-- C6 counterexample: the claim says that feeding room frames of 400, 400
and 200 bytes leaves 360 bytes retained in the accumulation buffer.  The run
does encode exactly one 640-byte frame, but the accumulation buffer retains
only 160 bytes afterwards — the remaining 200 unsent bytes sit in the
pending chunk list, which the third frame never caused to be merged. -/
theorem c6_counterexample :
    (sendLivekitAudioStreamToCallSession false false 0 9 160 0 (fun _ _ => some [1])
        [List.replicate 400 0, List.replicate 400 0,
          List.replicate 200 0]).pcmBuffer.length = 160
    ∧ (sendLivekitAudioStreamToCallSession false false 0 9 160 0 (fun _ _ => some [1])
        [List.replicate 400 0, List.replicate 400 0,
          List.replicate 200 0]).pcmBuffer.length ≠ 360 := by
  refine ⟨by decide, by decide⟩

/-- C6 amended: feeding three room frames of 400, 400 and 200 bytes yields
exactly one 640-byte frame handed to the encoder and one packet sent, with
360 unsent bytes retained in total — 160 of them in the accumulation buffer
and 200 in the pending chunk list. -/
theorem c6_scenario_three_frames :
    (sendLivekitAudioStreamToCallSession false false 0 9 160 0 (fun _ _ => some [1])
        [List.replicate 400 0, List.replicate 400 0,
          List.replicate 200 0]).encodedFrames.length = 1
    ∧ (sendLivekitAudioStreamToCallSession false false 0 9 160 0 (fun _ _ => some [1])
        [List.replicate 400 0, List.replicate 400 0,
          List.replicate 200 0]).sent.length = 1
    ∧ (∀ f ∈ (sendLivekitAudioStreamToCallSession false false 0 9 160 0
        (fun _ _ => some [1]) [List.replicate 400 0, List.replicate 400 0,
          List.replicate 200 0]).encodedFrames, f.length = FRAME_SIZE)
    ∧ (sendLivekitAudioStreamToCallSession false false 0 9 160 0 (fun _ _ => some [1])
        [List.replicate 400 0, List.replicate 400 0,
          List.replicate 200 0]).pcmBuffer.length = 160
    ∧ listBytes (sendLivekitAudioStreamToCallSession false false 0 9 160 0
        (fun _ _ => some [1]) [List.replicate 400 0, List.replicate 400 0,
          List.replicate 200 0]).tempBuffer = 200
    ∧ unsentBytes (sendLivekitAudioStreamToCallSession false false 0 9 160 0
        (fun _ _ => some [1]) [List.replicate 400 0, List.replicate 400 0,
          List.replicate 200 0]) = 360 := by
  refine ⟨by decide, by decide, by decide, by decide, by decide, by decide⟩

/-- C7: an inbound packet whose payload decodes to a PCM byte sequence of
even (valid) length is captured as exactly one frame with sample rate 16000,
one channel, and sample count equal to the decoded byte length divided by 2
(the division being exact for a valid length). -/
theorem c7_inbound_sample_count (pcm : List Nat) (heven : pcm.length % 2 = 0) :
    audioPacketHandler (some pcm) false
      = ([{ data := int16Samples pcm, sampleRate := 16000, channels := 1,
            samplesPerChannel := pcm.length / 2 }], 0)
    ∧ (int16Samples pcm).length = pcm.length / 2
    ∧ 2 * (pcm.length / 2) = pcm.length := by
  refine ⟨?_, int16Samples_length pcm, by omega⟩
  unfold audioPacketHandler
  simp [sampleRate, channels, int16Samples_length]

theorem c7_inbound_sample_count_witness :
    ([1, 2, 3, 4] : List Nat).length % 2 = 0
    ∧ (audioPacketHandler (some [1, 2, 3, 4]) false
        = ([{ data := int16Samples [1, 2, 3, 4], sampleRate := 16000, channels := 1,
              samplesPerChannel := ([1, 2, 3, 4] : List Nat).length / 2 }], 0)
      ∧ (int16Samples [1, 2, 3, 4]).length = ([1, 2, 3, 4] : List Nat).length / 2
      ∧ 2 * (([1, 2, 3, 4] : List Nat).length / 2) = ([1, 2, 3, 4] : List Nat).length) :=
  ⟨by decide, c7_inbound_sample_count [1, 2, 3, 4] (by decide)⟩

/-- C8: an inbound packet on which decode or capture throws is caught by the
per-packet handler: it logs exactly once and publishes zero frames, and the
handler — being re-run independently per packet — processes every other
packet of the stream exactly as it would have without the failure. -/
theorem c8_inbound_failure_isolated (decodeRes : Option (List Nat))
    (captureThrows : Bool) (front back : List (Option (List Nat) × Bool))
    (hfail : decodeRes = none ∨ captureThrows = true) :
    audioPacketHandler decodeRes captureThrows = ([], 1)
    ∧ onAudioPacket (front ++ (decodeRes, captureThrows) :: back)
        = onAudioPacket front ++ ([], 1) :: onAudioPacket back := by
  have hh : audioPacketHandler decodeRes captureThrows = ([], 1) := by
    rcases hfail with h | h
    · rw [h]
      rfl
    · rw [h]
      unfold audioPacketHandler
      cases decodeRes <;> simp
  refine ⟨hh, ?_⟩
  unfold onAudioPacket
  rw [List.map_append, List.map_cons]
  simp [hh]

theorem c8_inbound_failure_isolated_witness :
    ((none : Option (List Nat)) = none ∨ false = true)
    ∧ (audioPacketHandler (none : Option (List Nat)) false = ([], 1)
      ∧ onAudioPacket ([(some [0, 0], false)] ++ ((none : Option (List Nat)), false)
            :: [(some [1, 2], false)])
        = onAudioPacket [(some [0, 0], false)]
            ++ ([], 1) :: onAudioPacket [(some [1, 2], false)]) :=
  ⟨Or.inl rfl,
    c8_inbound_failure_isolated none false [(some [0, 0], false)]
      [(some [1, 2], false)] (Or.inl rfl)⟩

/-- C9: for any `Math.random()` draw in `[0, 1)`, the ssrc computed once per
invocation by `randomInt` lies in `[1024, 65535]`, and every packet the run
hands to `sendPacket` carries exactly that ssrc, with version 2 and the
padding and extension markers unset. -/
theorem c9_ssrc_range_and_constancy (disposed callEnded : Bool)
    (nowSec payloadType timestampInterval : Nat) (r : ℚ)
    (enc : Nat → List Nat → Option (List Nat)) (audioStream : List (List Nat))
    (h0 : 0 ≤ r) (h1 : r < 1) :
    1024 ≤ randomInt r
    ∧ randomInt r ≤ 65535
    ∧ ∀ p ∈ (sendLivekitAudioStreamToCallSession disposed callEnded nowSec payloadType
        timestampInterval r enc audioStream).sent,
        p.header.ssrc = randomInt r ∧ p.header.version = 2
          ∧ p.header.padding = false ∧ p.header.extension = false := by
  have hval : (65535 - 1024 + 1 : ℚ) = 64512 := by norm_num
  have hlb : (0 : ℤ) ≤ ⌊r * (65535 - 1024 + 1)⌋ := by
    apply Int.floor_nonneg.mpr
    rw [hval]
    exact mul_nonneg h0 (by norm_num)
  have hub : ⌊r * (65535 - 1024 + 1)⌋ < 64512 := by
    rw [Int.floor_lt, hval]
    push_cast
    calc r * 64512 < 1 * 64512 := by
          apply mul_lt_mul_of_pos_right h1
          norm_num
      _ = 64512 := by norm_num
  have hrb : 1024 ≤ randomInt r ∧ randomInt r ≤ 65535 := by
    unfold randomInt
    constructor
    · omega
    · omega
  refine ⟨hrb.1, hrb.2, ?_⟩
  intro p hp
  have hs := run_sentSpec disposed callEnded nowSec payloadType timestampInterval
    r enc audioStream
  obtain ⟨n, hg⟩ := List.mem_iff_get.mp hp
  have hfields := hs.2.2 n.1 n.2
  rw [← hg]
  exact ⟨hfields.2.2.1, hfields.2.2.2.1, hfields.2.2.2.2.1, hfields.2.2.2.2.2.1⟩

theorem c9_ssrc_range_and_constancy_witness :
    1024 ≤ randomInt 0
    ∧ randomInt 0 ≤ 65535
    ∧ ∀ p ∈ (sendLivekitAudioStreamToCallSession false false 0 9 160 0
        (fun _ _ => some [1]) [List.replicate 640 0]).sent,
        p.header.ssrc = randomInt 0 ∧ p.header.version = 2
          ∧ p.header.padding = false ∧ p.header.extension = false :=
  c9_ssrc_range_and_constancy false false 0 9 160 0 (fun _ _ => some [1])
    [List.replicate 640 0] (le_refl 0) zero_lt_one

/-- C10 counterexample: the claim says an odd decoded byte length makes the
`Int16Array` construction fail, so no frame is published.  In ECMAScript the
fractional length argument `byteLength / 2` is truncated by ToIndex, so for
a 5-byte decode the handler publishes one frame of 2 samples and logs
nothing — the construction does not fail. -/
theorem c10_counterexample :
    (audioPacketHandler (some [0, 0, 0, 0, 0]) false).1.length = 1
    ∧ (audioPacketHandler (some [0, 0, 0, 0, 0]) false).2 = 0
    ∧ (audioPacketHandler (some [0, 0, 0, 0, 0]) false).1.map
        AudioFrame.samplesPerChannel = [2] := by
  refine ⟨by decide, by decide, by decide⟩

/-- C10 amended: for an odd decoded byte length the construction truncates
rather than throws: exactly one frame is published with
`⌊byteLength / 2⌋` samples, the final odd byte is ignored, no error is
logged, and — the handler being stateless per packet — subsequent packets
are unaffected. -/
theorem c10_odd_length_truncates (pcm : List Nat) (hodd : pcm.length % 2 = 1) :
    audioPacketHandler (some pcm) false
      = ([{ data := int16Samples pcm, sampleRate := 16000, channels := 1,
            samplesPerChannel := pcm.length / 2 }], 0)
    ∧ (int16Samples pcm).length = pcm.length / 2
    ∧ 2 * (pcm.length / 2) + 1 = pcm.length := by
  refine ⟨?_, int16Samples_length pcm, by omega⟩
  unfold audioPacketHandler
  simp [sampleRate, channels, int16Samples_length]

theorem c10_odd_length_truncates_witness :
    ([7, 7, 7, 7, 7] : List Nat).length % 2 = 1
    ∧ (audioPacketHandler (some [7, 7, 7, 7, 7]) false
        = ([{ data := int16Samples [7, 7, 7, 7, 7], sampleRate := 16000, channels := 1,
              samplesPerChannel := ([7, 7, 7, 7, 7] : List Nat).length / 2 }], 0)
      ∧ (int16Samples [7, 7, 7, 7, 7]).length = ([7, 7, 7, 7, 7] : List Nat).length / 2
      ∧ 2 * (([7, 7, 7, 7, 7] : List Nat).length / 2) + 1
          = ([7, 7, 7, 7, 7] : List Nat).length) :=
  ⟨by decide, c10_odd_length_truncates [7, 7, 7, 7, 7] (by decide)⟩

end RCLK
